import Mathlib

/-!
# Verification of the price-ledger core of the AH scraper

Shallow embedding of the price-parsing, promotion-normalizing and
price-reconciliation logic of `src/backend/scrapers/AH/ah_comprehensive_scraper.py`
(the Selenium variant `ah_selenium_scraper.py` contains byte-identical copies of
`extract_price`, `detect_sale_and_calculate_price`, `calculate_sale_price` and
`extract_price_numeric`; the embedding below covers both).

Strings are modelled as `List Char`; prices (Python floats holding parsed
decimals) are modelled as `ℚ`.  Python's `re.search` is modelled by a small
backtracking pattern framework faithful to the leftmost-match, greedy,
left-alternative-first semantics of the `re` module, specialized to the
character-class/literal patterns the source uses.
-/

namespace PriceLedger

/-! ## Python string helpers -/

/-- The characters matched by the regex class `\s` (Python, ASCII range). -/
def isSpaceCh (c : Char) : Bool :=
  c = ' ' || c = '\t' || c = '\n' || c = '\x0d' || c = '\x0b' || c = '\x0c'

/-- The characters matched by `\d` (ASCII digits, the only ones the inputs use). -/
def isDigitCh (c : Char) : Bool := c.isDigit

/-- The characters matched by `\w` (ASCII range), used for `\b` boundaries. -/
def isWordCh (c : Char) : Bool :=
  c.isDigit || c.isAlpha || c = '_'

/-- `str.lower` restricted to the ASCII letters appearing in the inputs. -/
def toLowerCh (c : Char) : Char :=
  if 'A' ≤ c ∧ c ≤ 'Z' then Char.ofNat (c.toNat + 32) else c

/-- `text.lower()`. -/
def pyLower (s : List Char) : List Char := s.map toLowerCh

/-- `text.strip()` (whitespace strip at both ends). -/
def pyStrip (s : List Char) : List Char :=
  ((s.dropWhile isSpaceCh).reverse.dropWhile isSpaceCh).reverse

/-- Python substring containment `needle in haystack`. -/
def isSubstr (n : List Char) : List Char → Bool
  | [] => n.isEmpty
  | c :: t => n.isPrefixOf (c :: t) || isSubstr n t

/-- `' '.join(xs)`. -/
def joinSp : List (List Char) → List Char
  | [] => []
  | [x] => x
  | x :: y :: t => x ++ ' ' :: joinSp (y :: t)

/-- Numeric value of a digit string (most significant first). -/
def digitsVal (s : List Char) : Nat :=
  s.foldl (fun a c => a * 10 + (c.toNat - 48)) 0

/-- `s.replace(',', '.')`. -/
def commaToDot (s : List Char) : List Char :=
  s.map fun c => if c = ',' then '.' else c

/-- Python `float(s)` for the strings produced by the price regex groups
(digits, optionally a dot, optionally more digits). -/
def pyFloat (s : List Char) : ℚ :=
  let ip := s.takeWhile isDigitCh
  let rest := s.dropWhile isDigitCh
  match rest with
  | '.' :: fp => (digitsVal ip : ℚ) + (digitsVal fp : ℚ) / ((10 : ℚ) ^ fp.length)
  | _ => (digitsVal ip : ℚ)

/-! ## A faithful model of the `re` patterns used by the scraper

A pattern is a function from the input suffix to the list of all ways it can
match there, in backtracking priority order (greedy quantifiers produce the
longest alternative first, `|` produces the left alternative first, `?`
produces the present alternative first).  `reSearch` scans start positions
left to right and takes the highest-priority match at the first position that
matches at all — exactly `re.search`. -/

def PM (α : Type) : Type := List Char → List (α × List Char)

def pmPure {α : Type} (a : α) : PM α := fun s => [(a, s)]

def pmMap {α β : Type} (f : α → β) (p : PM α) : PM β :=
  fun s => (p s).map fun x => (f x.1, x.2)

def pmSeq {α β : Type} (p : PM α) (q : PM β) : PM (α × β) :=
  fun s => (p s).flatMap fun x => (q x.2).map fun y => ((x.1, y.1), y.2)

/-- Sequencing, keeping the right value. -/
def pmThen {α β : Type} (p : PM α) (q : PM β) : PM β := pmMap Prod.snd (pmSeq p q)

/-- Sequencing, keeping the left value. -/
def pmLeft {α β : Type} (p : PM α) (q : PM β) : PM α := pmMap Prod.fst (pmSeq p q)

/-- A single character of a class. -/
def pmCh (f : Char → Bool) : PM Char := fun s =>
  match s with
  | c :: r => if f c then [(c, r)] else []
  | [] => []

/-- A literal string. -/
def pmLit : List Char → PM Unit
  | [] => pmPure ()
  | c :: cs => pmThen (pmCh (· = c)) (pmLit cs)

/-- A literal string, case-insensitively (`re.IGNORECASE`). -/
def pmLitCI : List Char → PM Unit
  | [] => pmPure ()
  | c :: cs => pmThen (pmCh (fun x => toLowerCh x = toLowerCh c)) (pmLitCI cs)

/-- Greedy bounded repetition of a character class: matches between `lo` and
`hi` characters, longest first.  `\d{1,3}` is `pmRepMax isDigitCh 1 3`. -/
def pmRepMax (f : Char → Bool) (lo hi : Nat) : PM (List Char) := fun s =>
  let m := min (s.takeWhile f).length hi
  if m < lo then []
  else (List.range (m - lo + 1)).map fun i =>
    ((s.take (m - i), s.drop (m - i)))

/-- Greedy `+` on a character class (longest first). -/
def pmPlus (f : Char → Bool) : PM (List Char) := fun s => pmRepMax f 1 s.length s

/-- Greedy `*` on a character class (longest first). -/
def pmStar (f : Char → Bool) : PM (List Char) := fun s => pmRepMax f 0 s.length s

/-- Greedy `?` on a character class (present alternative first). -/
def pmOptCh (f : Char → Bool) : PM (Option Char) := fun s =>
  match s with
  | c :: r => if f c then [(some c, r), (none, s)] else [(none, s)]
  | [] => [(none, s)]

/-- Ordered alternation `|`. -/
def pmAlt {α : Type} (p q : PM α) : PM α := fun s => p s ++ q s

/-- A word boundary `\b` placed right after a word character: the next input
character (if any) must not be a word character. -/
def pmBoundaryAfterWord : PM Unit := fun s =>
  match s with
  | [] => [((), [])]
  | c :: _ => if isWordCh c then [] else [((), s)]

/-- The highest-priority match of `p` at the current position. -/
def pmFirst {α : Type} (p : PM α) (s : List Char) : Option (α × List Char) :=
  match p s with
  | x :: _ => some x
  | [] => none

/-- `re.search`: leftmost start position, then backtracking priority. -/
def reSearch {α : Type} (p : PM α) : List Char → Option α
  | [] => (pmFirst p []).map Prod.fst
  | c :: t =>
    match pmFirst p (c :: t) with
    | some x => some x.1
    | none => reSearch p t

/-- One fuel-indexed step list for `re.sub(pattern, '', text)`: delete every
non-overlapping leftmost match.  All patterns it is used with consume at least
one character, so `fuel = s.length + 1` always suffices. -/
def reSubDelAux {α : Type} (p : PM α) : Nat → List Char → List Char
  | 0, s => s
  | Nat.succ fuel, s =>
    match pmFirst p s with
    | some x => reSubDelAux p fuel x.2
    | none =>
      match s with
      | [] => []
      | c :: t => c :: reSubDelAux p fuel t

/-- `re.sub(pattern, '', text)`. -/
def reSubDel {α : Type} (p : PM α) (s : List Char) : List Char :=
  reSubDelAux p (s.length + 1) s

/-! ## The concrete patterns of `extract_price` / `extract_price_numeric` -/

/-- The class `[,.]`. -/
def sepCh (c : Char) : Bool := c = ',' || c = '.'

/-- The capture `(\d+[,.]?\d*)` used by the currency patterns and by
`extract_price_numeric`. -/
def pmNum : PM (List Char) :=
  pmMap
    (fun x => x.1.1 ++ (match x.1.2 with | some c => [c] | none => []) ++ x.2)
    (pmSeq (pmSeq (pmPlus isDigitCh) (pmOptCh sepCh)) (pmStar isDigitCh))

/-- The alternation `(l|ml|g|kg|cl|m)` (with `re.IGNORECASE`). -/
def pmUnitName : PM Unit :=
  pmAlt (pmLitCI (r"l").data)
    (pmAlt (pmLitCI (r"ml").data)
      (pmAlt (pmLitCI (r"g").data)
        (pmAlt (pmLitCI (r"kg").data)
          (pmAlt (pmLitCI (r"cl").data) (pmLitCI (r"m").data)))))

/-- The unit-size pattern `\d+[,.]\d+\s*(l|ml|g|kg|cl|m)\b` stripped out of the
text before price extraction. -/
def pmUnitSize : PM Unit :=
  pmThen (pmPlus isDigitCh)
    (pmThen (pmCh sepCh)
      (pmThen (pmPlus isDigitCh)
        (pmThen (pmStar isSpaceCh) (pmThen pmUnitName pmBoundaryAfterWord))))

/-- Price pattern 1: `€\s*(\d+[,.]?\d*)`. -/
def pmEuroPre : PM (List Char) :=
  pmThen (pmCh (· = '€')) (pmThen (pmStar isSpaceCh) pmNum)

/-- Price pattern 2: `(\d+[,.]?\d*)\s*€`. -/
def pmEuroSuf : PM (List Char) :=
  pmLeft (pmLeft pmNum (pmStar isSpaceCh)) (pmCh (· = '€'))

/-- Price pattern 3: `(\d{1,3},\d{2})`. -/
def pmBareComma : PM (List Char) :=
  pmMap (fun x => x.1.1 ++ x.1.2 :: x.2)
    (pmSeq (pmSeq (pmRepMax isDigitCh 1 3) (pmCh (· = ','))) (pmRepMax isDigitCh 2 2))

/-- Price pattern 4: `(\d{1,3}\.\d{2})`. -/
def pmBareDot : PM (List Char) :=
  pmMap (fun x => x.1.1 ++ x.1.2 :: x.2)
    (pmSeq (pmSeq (pmRepMax isDigitCh 1 3) (pmCh (· = '.'))) (pmRepMax isDigitCh 2 2))

/-- The range guard `0.01 <= price_num <= 1000.0`. -/
def inPriceRange (v : ℚ) : Bool :=
  decide ((1 : ℚ) / 100 ≤ v) && decide (v ≤ (1000 : ℚ))

/-- The failure result string of `extract_price`. -/
def naStr : List Char := (r"Not available").data

/-- One pattern attempt of `extract_price`'s loop: if the pattern matched and
the numeric value is in range, return `f"€{price_value}"`; otherwise fall
through to the next pattern. -/
def tryPricePattern (g : Option (List Char)) (fb : List Char) : List Char :=
  match g with
  | some v => if inPriceRange (pyFloat (commaToDot v)) then '€' :: v else fb
  | none => fb

/-- `extract_price` (identical in both scraper files): strip unit sizes, then
try the four price patterns in order, returning the first in-range match with
a `€` prefix, else `"Not available"`. -/
def extract_price (text : List Char) : List Char :=
  let t := reSubDel pmUnitSize text
  tryPricePattern (reSearch pmEuroPre t)
    (tryPricePattern (reSearch pmEuroSuf t)
      (tryPricePattern (reSearch pmBareComma t)
        (tryPricePattern (reSearch pmBareDot t) naStr)))

/-- `extract_price_numeric`: first `(\d+[,.]?\d*)` match, comma replaced by a
dot, converted by `float`; `None` when nothing matches. -/
def extract_price_numeric (price_str : List Char) : Option ℚ :=
  (reSearch pmNum price_str).map fun v => pyFloat (commaToDot v)

/-! ## The promotional patterns of `calculate_sale_price` -/

/-- Format 1: `(\d+)\s+voor\s+(\d+[,.]?\d*)`. -/
def pmVoorNP : PM (Nat × List Char) :=
  pmSeq
    (pmMap digitsVal
      (pmLeft (pmPlus isDigitCh)
        (pmThen (pmPlus isSpaceCh) (pmThen (pmLit (r"voor").data) (pmPlus isSpaceCh)))))
    pmNum

/-- Format 2: `voor\s+(\d+[,.]?\d*)`. -/
def pmVoorP : PM (List Char) :=
  pmThen (pmLit (r"voor").data) (pmThen (pmPlus isSpaceCh) pmNum)

/-- Format 3: `(\d+)\s+euro\s+korting`. -/
def pmEuroKorting : PM Nat :=
  pmMap digitsVal
    (pmLeft (pmPlus isDigitCh)
      (pmThen (pmPlus isSpaceCh)
        (pmThen (pmLit (r"euro").data)
          (pmThen (pmPlus isSpaceCh) (pmLit (r"korting").data)))))

/-- Format 4: `(\d+)\s*%\s+korting`. -/
def pmPctKorting : PM Nat :=
  pmMap digitsVal
    (pmLeft (pmPlus isDigitCh)
      (pmThen (pmStar isSpaceCh)
        (pmThen (pmCh (· = '%'))
          (pmThen (pmPlus isSpaceCh) (pmLit (r"korting").data)))))

/-- The ordinal suffix alternation `(e|de)`. -/
def pmOrdSuffix : PM Unit := pmAlt (pmLit (r"e").data) (pmLit (r"de").data)

/-- Format 5a: `(\d+)(e|de)\s+halve\s+prijs`. -/
def pmOrdHalvePrijs : PM Nat :=
  pmMap digitsVal
    (pmLeft (pmPlus isDigitCh)
      (pmThen pmOrdSuffix
        (pmThen (pmPlus isSpaceCh)
          (pmThen (pmLit (r"halve").data)
            (pmThen (pmPlus isSpaceCh) (pmLit (r"prijs").data))))))

/-- The guard of format 5b: `\d+e\s+halve\s+prijs` (only `e`, not `de`). -/
def pmOrdHalvePrijsGuard : PM Unit :=
  pmThen (pmPlus isDigitCh)
    (pmThen (pmLit (r"e").data)
      (pmThen (pmPlus isSpaceCh)
        (pmThen (pmLit (r"halve").data)
          (pmThen (pmPlus isSpaceCh) (pmLit (r"prijs").data)))))

/-- Format 6: `(\d+)\s*\+\s*(\d+)\s+(gratis|free)`. -/
def pmPlusGratis : PM (Nat × Nat) :=
  pmSeq
    (pmMap digitsVal
      (pmLeft (pmPlus isDigitCh) (pmThen (pmStar isSpaceCh) (pmThen (pmCh (· = '+')) (pmStar isSpaceCh)))))
    (pmMap digitsVal
      (pmLeft (pmPlus isDigitCh)
        (pmThen (pmPlus isSpaceCh)
          (pmAlt (pmLit (r"gratis").data) (pmLit (r"free").data)))))

/-- Format 7: `(\d+)(e|de)\s+gratis`. -/
def pmOrdGratis : PM Nat :=
  pmMap digitsVal
    (pmLeft (pmPlus isDigitCh)
      (pmThen pmOrdSuffix (pmThen (pmPlus isSpaceCh) (pmLit (r"gratis").data))))

/-- The unit alternation of format 8: `(gram|g|ml|l|kg|cl)`. -/
def pmUnitName8 : PM Unit :=
  pmAlt (pmLit (r"gram").data)
    (pmAlt (pmLit (r"g").data)
      (pmAlt (pmLit (r"ml").data)
        (pmAlt (pmLit (r"l").data)
          (pmAlt (pmLit (r"kg").data) (pmLit (r"cl").data)))))

/-- Format 8: `(\d+)\s+(gram|g|ml|l|kg|cl)\s+voor\s+(\d+[,.]?\d*)`
(capturing the unit amount and the price). -/
def pmUnitVoor : PM (Nat × List Char) :=
  pmSeq
    (pmMap digitsVal
      (pmLeft (pmPlus isDigitCh)
        (pmThen (pmPlus isSpaceCh)
          (pmThen pmUnitName8
            (pmThen (pmPlus isSpaceCh)
              (pmThen (pmLit (r"voor").data) (pmPlus isSpaceCh)))))))
    pmNum

/-! ## `calculate_sale_price`

Each format step yields `none` when its pattern (or its regular-price
truthiness test) does not fire, so the next format is tried; `some none`
models a `ZeroDivisionError` caught by the outer `except`, which makes the
whole function return `None`; `some (some v)` is a `return v`. -/

/-- Chain the format steps: first one that fires wins; an exception or the end
of the chain gives `None`. -/
def fireChain : List (Option (Option ℚ)) → Option ℚ
  | [] => none
  | none :: rest => fireChain rest
  | some r :: _ => r

/-- Truthiness of the extracted regular price (`if regular_price_num:`):
`None` and `0.0` are falsy. -/
def truthyRat : Option ℚ → Option ℚ
  | some r => if r = 0 then none else some r
  | none => none

/-- Step for format 1 (`X voor Y` → `Y / X`). -/
def stepVoorNP (t : List Char) : Option (Option ℚ) :=
  (reSearch pmVoorNP t).map fun x =>
    if x.1 = 0 then none else some (pyFloat (commaToDot x.2) / (x.1 : ℚ))

/-- Step for format 2 (`voor X` → `X`). -/
def stepVoorP (t : List Char) : Option (Option ℚ) :=
  (reSearch pmVoorP t).map fun p => some (pyFloat (commaToDot p))

/-- Step for format 3 (`N euro korting` → `max 0 (regular − N)`). -/
def stepEuroKorting (t : List Char) (regT : Option ℚ) : Option (Option ℚ) :=
  match reSearch pmEuroKorting t, regT with
  | some n, some r => some (some (max 0 (r - (n : ℚ))))
  | _, _ => none

/-- Step for format 4 (`N% korting` → `max 0 (regular × (1 − N/100))`). -/
def stepPctKorting (t : List Char) (regT : Option ℚ) : Option (Option ℚ) :=
  match reSearch pmPctKorting t, regT with
  | some n, some r => some (some (max 0 (r * (1 - (n : ℚ) / 100))))
  | _, _ => none

/-- Step for format 5a (`Ne halve prijs` → `regular × 0.75`). -/
def stepOrdHalvePrijs (t : List Char) (regT : Option ℚ) : Option (Option ℚ) :=
  match reSearch pmOrdHalvePrijs t, regT with
  | some _, some r => some (some (r * (3 / 4)))
  | _, _ => none

/-- Step for format 5b (plain `halve prijs` → `regular / 2`), guarded against
the ordinal form. -/
def stepHalvePrijs (t : List Char) (regT : Option ℚ) : Option (Option ℚ) :=
  if (isSubstr (r"halve").data t && isSubstr (r"prijs").data t &&
      isSubstr (r"halve prijs").data t) &&
      (reSearch pmOrdHalvePrijsGuard t).isNone then
    match regT with
    | some r => some (some (r / 2))
    | none => none
  else none

/-- Step for format 6 (`A + B gratis` → `(A × regular) / (A + B)`). -/
def stepPlusGratis (t : List Char) (regT : Option ℚ) : Option (Option ℚ) :=
  match reSearch pmPlusGratis t, regT with
  | some bf, some r =>
      some (if bf.1 + bf.2 = 0 then none
            else some ((bf.1 : ℚ) * r / ((bf.1 : ℚ) + (bf.2 : ℚ))))
  | _, _ => none

/-- Step for format 7 (`Ne gratis` → `((N−1) × regular) / N`). -/
def stepOrdGratis (t : List Char) (regT : Option ℚ) : Option (Option ℚ) :=
  match reSearch pmOrdGratis t, regT with
  | some n, some r =>
      some (if n = 0 then none else some (((n : ℚ) - 1) * r / (n : ℚ)))
  | _, _ => none

/-- Step for format 8 (`U unit voor P` → `P / U`). -/
def stepUnitVoor (t : List Char) : Option (Option ℚ) :=
  (reSearch pmUnitVoor t).map fun x =>
    if x.1 = 0 then none else some (pyFloat (commaToDot x.2) / (x.1 : ℚ))

/-- `calculate_sale_price` (identical in both scraper files): lowercase the
text, then try the promotional formats in the fixed source order, first match
wins; `None` when nothing fires or a computation raised. -/
def calculate_sale_price (text regular_price : List Char) : Option ℚ :=
  let t := pyLower text
  let regT := truthyRat (extract_price_numeric regular_price)
  fireChain
    [stepVoorNP t, stepVoorP t, stepEuroKorting t regT, stepPctKorting t regT,
     stepOrdHalvePrijs t regT, stepHalvePrijs t regT, stepPlusGratis t regT,
     stepOrdGratis t regT, stepUnitVoor t]

/-! ## `detect_sale_and_calculate_price`

The DOM element argument is opaque to the reconciliation logic; the function
only consumes the stripped text of the smart-label / shield badge elements
(each label's `span` texts followed by the label's own text when non-empty),
the joined smart-label text, and the whole-article text.  An `Article` is
that projection of the DOM input. -/

structure Article where
  /-- For each `p[data-testhook="product-smart-label"]`: the stripped texts of
  its `span` descendants, and its own stripped text. -/
  smartLabels : List (List (List Char) × List Char)
  /-- For each `div[data-testhook="product-shield"]`: the stripped texts of
  its `span` descendants, and its own stripped text. -/
  shields : List (List (List Char) × List Char)
  /-- `article.get_text(' ', strip=True)`. -/
  fullText : List Char
deriving DecidableEq

/-- The collected sale-badge texts (`sale_elements` in the source): for each
smart label its spans then, if its text is non-empty, the label itself;
then the same for the shields. -/
def saleElementTexts (a : Article) : List (List Char) :=
  (a.smartLabels.flatMap fun le => le.1 ++ (if le.2.isEmpty then [] else [le.2])) ++
  (a.shields.flatMap fun le => le.1 ++ (if le.2.isEmpty then [] else [le.2]))

/-- The weekday / tomorrow tokens signalling a future sale. -/
def futureDayTokens : List (List Char) :=
  [(r"maandag").data, (r"morgen").data, (r"dinsdag").data, (r"woensdag").data,
   (r"donderdag").data, (r"vrijdag").data, (r"zaterdag").data, (r"zondag").data]

/-- The generic sale keywords. -/
def saleKeywordTokens : List (List Char) :=
  [(r"halve prijs").data, (r"gratis").data, (r"korting").data, (r"voor").data,
   (r"%").data]

/-- The keywords that route to `calculate_sale_price`. -/
def calcKeywordTokens : List (List Char) :=
  [(r"halve prijs").data, (r"gratis").data, (r"voor").data]

/-- `combined_sale_text`: the lowercased badge texts joined by spaces. -/
def combinedSaleText (a : Article) : List Char :=
  joinSp ((saleElementTexts a).map pyLower)

/-- `detect_sale_and_calculate_price` (identical in both scraper files).
Returns `(is_active_sale, is_future_sale, sale_price, sale_starts_at,
sale_type)`. -/
def detect_sale_and_calculate_price (a : Article) (current_price : List Char) :
    Bool × Bool × Option ℚ × Option (List Char) × Option (List Char) :=
  let texts := saleElementTexts a
  let combined := combinedSaleText a
  let dateText : Option (List Char) :=
    if a.smartLabels.isEmpty then none
    else some (pyStrip (joinSp (a.smartLabels.map fun le => le.2)))
  let hasVandaag := isSubstr (r"vandaag").data combined
  let hasFutureDate := futureDayTokens.any fun d => isSubstr d combined
  let hasSaleKeywords := saleKeywordTokens.any fun k => isSubstr k combined
  if ¬texts.isEmpty ∧ hasSaleKeywords then
    let saleType : Option (List Char) :=
      if combined.isEmpty then none else some (pyStrip combined)
    let needsCalculation := calcKeywordTokens.any fun k => isSubstr k combined
    let salePrice : Option ℚ :=
      if needsCalculation then calculate_sale_price a.fullText current_price
      else extract_price_numeric current_price
    if hasVandaag then
      (true, false, salePrice, none, saleType)
    else if hasFutureDate then
      let startsAt :=
        match dateText with
        | some d => if d.isEmpty then pyStrip combined else d
        | none => pyStrip combined
      (false, true, salePrice, some startsAt, saleType)
    else
      (true, false, salePrice, none, saleType)
  else
    (false, false, none, none, none)

/-! ## The store: `products` and `price_history` tables

`price_history.price` is declared `REAL NOT NULL` in the schema, so a history
row always carries a value (`HistoryEntry.price : ℚ`); the Python code's
attempt to insert `None` there is modelled as an error.  Row order of
`history` models `changed_at` / autoincrement-id order, so "most recent entry"
is the last element of the per-product filtered list.  Timestamps are modelled
by an abstract clock value `now : Nat` passed to each batch. -/

structure Product where
  id : Nat
  brand_id : Option Nat
  category_id : Option Nat
  name : List Char
  current_price : Option ℚ
  url : List Char
  source_type : List Char
  supermarket : List Char
  page_number : Nat
  isSale : Bool
  isFutureSale : Bool
  salePrice : Option ℚ
  saleStartsAt : Option (List Char)
  saleType : Option (List Char)
  created_at : Nat
  last_updated : Nat
deriving DecidableEq

structure HistoryEntry where
  product_id : Nat
  price : ℚ
deriving DecidableEq

structure Store where
  products : List Product
  history : List HistoryEntry
  nextId : Nat
deriving DecidableEq

def Store.empty : Store := { products := [], history := [], nextId := 0 }

/-- One scraped observation: the `product` dict handed to
`smart_save_products` (built by `extract_product_info`). -/
structure Obs where
  name : List Char
  price : List Char
  url : Option (List Char)
  isSale : Bool
  isFutureSale : Bool
  salePrice : Option ℚ
  saleStartsAt : Option (List Char)
  saleType : Option (List Char)
deriving DecidableEq

/-- The returned `{'new': _, 'updated': _, 'unchanged': _}` counters. -/
structure Stats where
  new : Nat
  updated : Nat
  unchanged : Nat
deriving DecidableEq

def Stats.zero : Stats := ⟨0, 0, 0⟩

/-- `if not product.get('url'): continue` — missing or empty URL is falsy. -/
def urlFalsy : Option (List Char) → Bool
  | none => true
  | some u => u.isEmpty

/-- The `SELECT id, current_price FROM products WHERE url = ?` lookup
(`url` is UNIQUE, so the first hit is the only one). -/
def findProduct (st : Store) (u : List Char) : Option Product :=
  st.products.find? fun p => p.url = u

/-- `UPDATE products SET current_price = ?, last_updated = CURRENT_TIMESTAMP
WHERE id = ?`. -/
def updatePrice (st : Store) (pid : Nat) (q : Option ℚ) (now : Nat) : Store :=
  { st with
    products := st.products.map fun p =>
      if p.id = pid then { p with current_price := q, last_updated := now } else p }

/-- `INSERT INTO price_history (product_id, price) VALUES (?, ?)`. -/
def appendHistory (st : Store) (pid : Nat) (q : ℚ) : Store :=
  { st with history := st.history ++ [⟨pid, q⟩] }

/-- The `INSERT INTO products (...)` of the new-product branch. -/
def insertProduct (brand_id category_id : Option Nat) (source_type : List Char)
    (now : Nat) (st : Store) (o : Obs) (u : List Char) (pf : Option ℚ) : Store :=
  { st with
    products := st.products ++
      [{ id := st.nextId
         brand_id := brand_id
         category_id := category_id
         name := o.name
         current_price := pf
         url := u
         source_type := source_type
         supermarket := (r"ah").data
         page_number := 8
         isSale := o.isSale
         isFutureSale := o.isFutureSale
         salePrice := o.salePrice
         saleStartsAt := o.saleStartsAt
         saleType := o.saleType
         created_at := now
         last_updated := now }]
    nextId := st.nextId + 1 }

/-- The body of `smart_save_products`' per-product loop.  An
`Except.error stats` models an exception raised mid-batch (the only reachable
one: inserting a `None` price into the `NOT NULL` `price_history.price`
column), carrying the counters accumulated before the failing observation;
the caller rolls the store back. -/
def saveLoop (brand_id category_id : Option Nat) (source_type : List Char)
    (now : Nat) : Store → Stats → List Obs → Except Stats (Store × Stats)
  | st, stats, [] => .ok (st, stats)
  | st, stats, o :: rest =>
    if urlFalsy o.url then
      saveLoop brand_id category_id source_type now st stats rest
    else
      let u := o.url.getD []
      match findProduct st u with
      | some p =>
        let price_float := extract_price_numeric o.price
        if p.current_price ≠ price_float then
          match price_float with
          | none => .error stats
          | some q =>
            let st := appendHistory (updatePrice st p.id (some q) now) p.id q
            saveLoop brand_id category_id source_type now st
              { stats with updated := stats.updated + 1 } rest
        else
          saveLoop brand_id category_id source_type now st
            { stats with unchanged := stats.unchanged + 1 } rest
      | none =>
        let price_float := extract_price_numeric o.price
        let st1 := insertProduct brand_id category_id source_type now st o u price_float
        match price_float with
        | none => .error stats
        | some q =>
          let st2 := appendHistory st1 st.nextId q
          saveLoop brand_id category_id source_type now st2
            { stats with new := stats.new + 1 } rest

/-- `smart_save_products`: run the loop inside one transaction; on an
exception the `except` handler returns the counters gathered so far, and
closing the connection without `commit` rolls the store back to the state at
the start of the batch. -/
def smart_save_products (brand_id category_id : Option Nat)
    (source_type : List Char) (now : Nat) (st : Store) (products : List Obs) :
    Store × Stats :=
  if products.isEmpty then (st, Stats.zero)
  else
    match saveLoop brand_id category_id source_type now st Stats.zero products with
    | .ok r => r
    | .error stats => (st, stats)

/-- One reconciliation batch: the parameters and observation list of a single
`smart_save_products` call. -/
structure Batch where
  brand_id : Option Nat
  category_id : Option Nat
  source_type : List Char
  now : Nat
  obs : List Obs

/-- A sequence of reconciliations starting from a given store. -/
def runBatches (st : Store) : List Batch → Store
  | [] => st
  | b :: rest =>
    runBatches (smart_save_products b.brand_id b.category_id b.source_type b.now st b.obs).1 rest

/-! ## The ledger invariant -/

/-- The price of the most recent `price_history` row of a product (row order
models `changed_at` / autoincrement order). -/
def latestPrice (st : Store) (pid : Nat) : Option ℚ :=
  ((st.history.filter fun h => h.product_id = pid).getLast?).map fun h => h.price

/-- Well-formedness maintained by the schema: ids below the autoincrement
counter, distinct product ids. -/
def StoreWF (st : Store) : Prop :=
  (∀ p ∈ st.products, p.id < st.nextId) ∧
  (∀ h ∈ st.history, h.product_id < st.nextId) ∧
  st.products.Pairwise fun a b => a.id ≠ b.id

/-- The ledger invariant: a product with a known current price has history,
and its most recent history price is the current price. -/
def LedgerInv (st : Store) : Prop :=
  ∀ p ∈ st.products, ∀ q, p.current_price = some q → latestPrice st p.id = some q

/-! ## Sequential and concurrent submission of observations

`resync_letter` launches the per-brand scrape tasks with `asyncio.gather`;
each task's `smart_save_products` opens its own connection on the shared
SQLite database file.  Sequential submission is one batch after another.  For
concurrent submission: a batch's initial `SELECT` executes in autocommit mode
before the batch's write transaction begins, so it reads the last *committed*
state even while another task is mid-transaction; the batch's writes then
either all commit atomically at `conn.commit()`, or are all rolled back when
a statement raises (in particular an `INSERT INTO products` violating the
UNIQUE constraint on `url` raises `IntegrityError`, which the batch's
`except` swallows before the connection closes without commit).  A two-task
concurrent execution is therefore an interleaving of one read event and one
atomic commit event per task against the committed store. -/

/-- Submit observations one `smart_save_products` batch at a time. -/
def runSeqObs (bid cid : Option Nat) (s : List Char) (now : Nat) :
    Store → List Obs → Store
  | st, [] => st
  | st, o :: rest =>
    runSeqObs bid cid s now (smart_save_products bid cid s now st [o]).1 rest

/-- One concurrent single-observation reconciliation task: its observation,
the result of its `SELECT` once executed, and whether its transaction has
finished. -/
structure TaskState where
  o : Obs
  fetched : Option (Option Product)
  committed : Bool
deriving DecidableEq

def TaskState.start (o : Obs) : TaskState := ⟨o, none, false⟩

/-- The task's autocommit `SELECT ... WHERE url = ?` against the committed
store. -/
def taskRead (st : Store) (t : TaskState) : TaskState :=
  if t.fetched.isSome then t
  else { t with fetched := some (findProduct st (t.o.url.getD [])) }

/-- The effect of the task's write transaction on the committed store, given
the row its earlier `SELECT` fetched.  A constraint violation (UNIQUE `url`
on the insert path, NOT NULL history price on either path) rolls the whole
transaction back. -/
def taskCommitStore (bid cid : Option Nat) (s : List Char) (now : Nat)
    (st : Store) (o : Obs) (fetched : Option Product) : Store :=
  match fetched with
  | some p =>
    let pf := extract_price_numeric o.price
    if p.current_price ≠ pf then
      match pf with
      | none => st
      | some q => appendHistory (updatePrice st p.id (some q) now) p.id q
    else st
  | none =>
    if (findProduct st (o.url.getD [])).isSome then st
    else
      match extract_price_numeric o.price with
      | none => st
      | some q =>
        appendHistory (insertProduct bid cid s now st o (o.url.getD []) (some q))
          st.nextId q

/-- Commit a task's transaction (no-op when it has not read yet or already
committed). -/
def taskCommit (bid cid : Option Nat) (s : List Char) (now : Nat)
    (st : Store) (t : TaskState) : Store × TaskState :=
  match t.fetched with
  | none => (st, t)
  | some f =>
    if t.committed then (st, t)
    else (taskCommitStore bid cid s now st t.o f, { t with committed := true })

/-- Interleaving events of two concurrent tasks. -/
inductive SchedEv where
  | readA
  | readB
  | commitA
  | commitB
deriving DecidableEq

/-- Execute a schedule of two concurrent single-observation reconciliations
against the shared store. -/
def execSched (bid cid : Option Nat) (s : List Char) (now : Nat) :
    List SchedEv → Store → TaskState → TaskState → Store
  | [], st, _, _ => st
  | e :: rest, st, ta, tb =>
    match e with
    | .readA => execSched bid cid s now rest st (taskRead st ta) tb
    | .readB => execSched bid cid s now rest st ta (taskRead st tb)
    | .commitA =>
      let r := taskCommit bid cid s now st ta
      execSched bid cid s now rest r.1 r.2 tb
    | .commitB =>
      let r := taskCommit bid cid s now st tb
      execSched bid cid s now rest r.1 ta r.2

/-! ## Concrete fixtures used by witnesses and counterexamples -/

def brandStr : List Char := (r"brand").data

def urlX : List Char := (r"https://www.ah.nl/producten/product/wi1/x").data

def urlY : List Char := (r"https://www.ah.nl/producten/product/wi2/y").data

/-- An observation of URL X at price 1.00 with no sale annotation. -/
def obsX100 : Obs :=
  { name := (r"Product X").data, price := (r"€1.00").data, url := some urlX,
    isSale := false, isFutureSale := false, salePrice := none,
    saleStartsAt := none, saleType := none }

/-- The same URL observed at 1.20, carrying a different sale annotation. -/
def obsX120 : Obs :=
  { obsX100 with
    price := (r"€1.20").data
    isSale := true
    salePrice := some (11 / 10)
    saleType := some ((r"bonus").data) }

/-- The same URL observed at 2.00. -/
def obsX200 : Obs := { obsX100 with price := (r"€2.00").data }

/-- The same URL observed at 3.00. -/
def obsX300 : Obs := { obsX100 with price := (r"€3.00").data }

/-- The same URL observed with a failed price extraction. -/
def obsXNA : Obs := { obsX100 with price := naStr }

/-- An observation of a second URL Y at price 3.00. -/
def obsY300 : Obs :=
  { obsX100 with
    url := some urlY
    name := (r"Product Y").data
    price := (r"€3.00").data }

/-- The store after one batch seeding product X at price 1.00. -/
def stSeedX : Store :=
  (smart_save_products none none brandStr 1 Store.empty [obsX100]).1

/-- The product row that the seeding batch inserts. -/
def prodX : Product :=
  { id := 0, brand_id := none, category_id := none, name := (r"Product X").data,
    current_price := some 1, url := urlX, source_type := brandStr,
    supermarket := (r"ah").data, page_number := 8, isSale := false,
    isFutureSale := false, salePrice := none, saleStartsAt := none,
    saleType := none, created_at := 1, last_updated := 1 }

def cp250 : List Char := (r"€2.50").data

def cp060 : List Char := (r"€0.60").data

/-- An article with no sale badges. -/
def artNone : Article :=
  { smartLabels := [], shields := [], fullText := (r"plain product").data }

/-- A shield badge with a calculation keyword (`gratis`) whose article text
matches no promotional pattern. -/
def artGratis : Article :=
  { smartLabels := [], shields := [([], (r"GRATIS bezorging").data)],
    fullText := (r"gratis bezorging").data }

/-- A shield badge with only the `korting` / `%` keywords. -/
def artKorting : Article :=
  { smartLabels := [], shields := [([], (r"30% KORTING").data)],
    fullText := (r"product 30% korting").data }

/-- A smart label announcing an active (`vandaag`) promotion that needs a
calculation. -/
def artVandaag : Article :=
  { smartLabels := [([(r"Vandaag 2 voor 0.99").data], (r"Vandaag 2 voor 0.99").data)],
    shields := [], fullText := (r"Vandaag 2 voor 0.99").data }

/-- A future-sale smart label (`maandag`). -/
def artFuture : Article :=
  { smartLabels := [([(r"Vanaf maandag").data], (r"Vanaf maandag 25% korting").data)],
    shields := [], fullText := (r"x").data }

/-- One batch submitting the seed observation, as a `Batch`. -/
def batchX : Batch :=
  { brand_id := none, category_id := none, source_type := brandStr, now := 1,
    obs := [obsX100] }

/-- Pairing of observations with their parsed prices for a fixed URL. -/
def ObsFor (u : List Char) (o : Obs) (p : ℚ) : Prop :=
  o.url = some u ∧ extract_price_numeric o.price = some p

/-! ## Supporting lemmas -/

theorem storeWF_empty : StoreWF Store.empty := by
  refine ⟨?_, ?_, ?_⟩ <;> simp [Store.empty]

theorem ledgerInv_empty : LedgerInv Store.empty := by
  intro p hp
  simp [Store.empty] at hp

theorem latestPrice_append_eq (st : Store) (pid : Nat) (q : ℚ) :
    latestPrice (appendHistory st pid q) pid = some q := by
  simp [latestPrice, appendHistory, List.filter_append, List.getLast?_concat]

theorem latestPrice_append_ne (st : Store) (pid pid' : Nat) (q : ℚ)
    (h : pid' ≠ pid) : latestPrice (appendHistory st pid q) pid' = latestPrice st pid' := by
  simp [latestPrice, appendHistory, List.filter_append, h, Ne.symm h]

theorem latestPrice_updatePrice (st : Store) (pid : Nat) (qo : Option ℚ)
    (now : Nat) (pid' : Nat) :
    latestPrice (updatePrice st pid qo now) pid' = latestPrice st pid' := rfl

/-- The price-changed path preserves well-formedness. -/
theorem storeWF_update (st : Store) (p : Product) (q : ℚ) (now : Nat)
    (hwf : StoreWF st) (hp : p ∈ st.products) :
    StoreWF (appendHistory (updatePrice st p.id (some q) now) p.id q) := by
  obtain ⟨h1, h2, h3⟩ := hwf
  refine ⟨?_, ?_, ?_⟩
  · intro r hr
    simp only [appendHistory, updatePrice, List.mem_map] at hr
    obtain ⟨r0, hr0, hr0e⟩ := hr
    have : r.id = r0.id := by
      subst hr0e
      split <;> simp_all
    rw [this]
    exact h1 r0 hr0
  · intro h hh
    simp only [appendHistory, updatePrice, List.mem_append, List.mem_singleton] at hh
    rcases hh with hh | hh
    · exact h2 h hh
    · subst hh
      exact h1 p hp
  · simp only [appendHistory, updatePrice]
    rw [List.pairwise_map]
    refine h3.imp_of_mem ?_
    intro a b _ _ hab
    split <;> split <;> exact hab

/-- The price-changed path preserves the ledger invariant. -/
theorem ledgerInv_update (st : Store) (p : Product) (q : ℚ) (now : Nat)
    (hinv : LedgerInv st) :
    LedgerInv (appendHistory (updatePrice st p.id (some q) now) p.id q) := by
  intro r hr q' hq'
  simp only [appendHistory, updatePrice, List.mem_map] at hr
  obtain ⟨r0, hr0, hr0e⟩ := hr
  by_cases hid : r0.id = p.id
  · have hre : r = { r0 with current_price := some q, last_updated := now } := by
      subst hr0e; simp [hid]
    have hrid : r.id = p.id := by rw [hre]; simpa using hid
    rw [hre] at hq'
    simp only at hq'
    obtain rfl : q = q' := by injection hq'
    rw [hrid]
    exact latestPrice_append_eq (updatePrice st p.id (some q) now) p.id q
  · have hre : r = r0 := by subst hr0e; simp [hid]
    subst hre
    have hlat := latestPrice_append_ne (updatePrice st p.id (some q) now) p.id r.id q hid
    simp only [latestPrice, appendHistory, updatePrice] at hlat ⊢
    rw [hlat]
    exact hinv r hr0 q' hq'

/-- The new-product path preserves well-formedness. -/
theorem storeWF_insert (bid cid : Option Nat) (s : List Char) (now : Nat)
    (st : Store) (o : Obs) (u : List Char) (q : ℚ) (hwf : StoreWF st) :
    StoreWF (appendHistory (insertProduct bid cid s now st o u (some q)) st.nextId q) := by
  obtain ⟨h1, h2, h3⟩ := hwf
  refine ⟨?_, ?_, ?_⟩
  · intro r hr
    simp only [appendHistory, insertProduct, List.mem_append, List.mem_singleton] at hr ⊢
    rcases hr with hr | hr
    · exact Nat.lt_succ_of_lt (h1 r hr)
    · subst hr; exact Nat.lt_succ_self _
  · intro h hh
    simp only [appendHistory, insertProduct, List.mem_append, List.mem_singleton] at hh
    rcases hh with hh | hh
    · exact Nat.lt_succ_of_lt (h2 h hh)
    · subst hh; exact Nat.lt_succ_self _
  · simp only [appendHistory, insertProduct]
    rw [List.pairwise_append]
    refine ⟨h3, List.pairwise_singleton _ _, ?_⟩
    intro a ha b hb
    simp only [List.mem_singleton] at hb
    subst hb
    simp only
    exact Nat.ne_of_lt (h1 a ha)

/-- The new-product path preserves the ledger invariant. -/
theorem ledgerInv_insert (bid cid : Option Nat) (s : List Char) (now : Nat)
    (st : Store) (o : Obs) (u : List Char) (q : ℚ)
    (hwf : StoreWF st) (hinv : LedgerInv st) :
    LedgerInv (appendHistory (insertProduct bid cid s now st o u (some q)) st.nextId q) := by
  obtain ⟨h1, h2, _⟩ := hwf
  intro r hr q' hq'
  simp only [appendHistory, insertProduct, List.mem_append, List.mem_singleton] at hr
  rcases hr with hr | hr
  · have hne : r.id ≠ st.nextId := Nat.ne_of_lt (h1 r hr)
    have hlat :
        latestPrice (appendHistory (insertProduct bid cid s now st o u (some q)) st.nextId q) r.id
          = latestPrice st r.id := by
      have := latestPrice_append_ne (insertProduct bid cid s now st o u (some q)) st.nextId r.id q hne
      simpa [latestPrice, insertProduct] using this
    rw [hlat]
    exact hinv r hr q' hq'
  · subst hr
    simp only at hq' ⊢
    obtain rfl : q = q' := by injection hq'
    have := latestPrice_append_eq (insertProduct bid cid s now st o u (some q)) st.nextId q
    simpa [latestPrice, insertProduct] using this

/-- Every successfully committed pass of the save loop preserves
well-formedness and the ledger invariant. -/
theorem saveLoop_wf_inv (bid cid : Option Nat) (s : List Char) (now : Nat) :
    ∀ (obs : List Obs) (st : Store) (stats : Stats) (st' : Store) (stats' : Stats),
      saveLoop bid cid s now st stats obs = .ok (st', stats') →
      StoreWF st → LedgerInv st → StoreWF st' ∧ LedgerInv st'
  | [], st, stats, st', stats', h, hwf, hinv => by
    simp only [saveLoop] at h
    obtain rfl : st = st' := congrArg Prod.fst (Except.ok.inj h)
    exact ⟨hwf, hinv⟩
  | o :: rest, st, stats, st', stats', h, hwf, hinv => by
    simp only [saveLoop] at h
    split at h
    · exact saveLoop_wf_inv bid cid s now rest st stats st' stats' h hwf hinv
    · split at h
      case _ p hfind =>
        split at h
        · split at h
          · exact absurd h (by simp)
          case _ q hq =>
            have hp : p ∈ st.products := List.mem_of_find?_eq_some hfind
            exact saveLoop_wf_inv bid cid s now rest _ _ st' stats' h
              (storeWF_update st p q now hwf hp)
              (ledgerInv_update st p q now hinv)
        · exact saveLoop_wf_inv bid cid s now rest st _ st' stats' h hwf hinv
      case _ hfind =>
        split at h
        · exact absurd h (by simp)
        case _ q hq =>
          rw [hq] at h
          exact saveLoop_wf_inv bid cid s now rest _ _ st' stats' h
            (storeWF_insert bid cid s now st o _ q hwf)
            (ledgerInv_insert bid cid s now st o _ q hwf hinv)

/-- A whole `smart_save_products` call preserves well-formedness and the
ledger invariant (an aborted batch is rolled back, so trivially so). -/
theorem smart_save_wf_inv (bid cid : Option Nat) (s : List Char) (now : Nat)
    (st : Store) (obs : List Obs) (hwf : StoreWF st) (hinv : LedgerInv st) :
    StoreWF (smart_save_products bid cid s now st obs).1 ∧
    LedgerInv (smart_save_products bid cid s now st obs).1 := by
  unfold smart_save_products
  split
  · exact ⟨hwf, hinv⟩
  · split
    case _ r heq =>
      exact saveLoop_wf_inv bid cid s now obs st Stats.zero r.1 r.2 (by rw [heq]) hwf hinv
    · exact ⟨hwf, hinv⟩

theorem runBatches_wf_inv :
    ∀ (batches : List Batch) (st : Store), StoreWF st → LedgerInv st →
      StoreWF (runBatches st batches) ∧ LedgerInv (runBatches st batches)
  | [], st, hwf, hinv => ⟨hwf, hinv⟩
  | b :: rest, st, hwf, hinv => by
    obtain ⟨hwf1, hinv1⟩ :=
      smart_save_wf_inv b.brand_id b.category_id b.source_type b.now st b.obs hwf hinv
    exact runBatches_wf_inv rest _ hwf1 hinv1

/-- A single-observation batch on a fresh URL with a parsed price: the
new-product path. -/
theorem smart_save_single_new (bid cid : Option Nat) (s : List Char)
    (now : Nat) (st : Store) (o : Obs) (u : List Char) (q : ℚ)
    (hu : o.url = some u) (hne : u.isEmpty = false)
    (hfind : findProduct st u = none)
    (hq : extract_price_numeric o.price = some q) :
    smart_save_products bid cid s now st [o] =
      (appendHistory (insertProduct bid cid s now st o u (some q)) st.nextId q,
       ⟨1, 0, 0⟩) := by
  simp only [smart_save_products, List.isEmpty_cons, saveLoop, hu, urlFalsy, hne,
    Option.getD, hfind, hq, Bool.false_eq_true, if_false]
  rfl

/-- A single-observation batch on a tracked URL whose parsed price equals the
stored current price: the unchanged path, which touches nothing. -/
theorem smart_save_single_unchanged (bid cid : Option Nat) (s : List Char)
    (now : Nat) (st : Store) (o : Obs) (p : Product) (q : ℚ)
    (hu : o.url = some p.url) (hne : p.url.isEmpty = false)
    (hfind : findProduct st p.url = some p)
    (hq : extract_price_numeric o.price = some q)
    (heq : p.current_price = some q) :
    smart_save_products bid cid s now st [o] = (st, ⟨0, 0, 1⟩) := by
  have hnd : ¬p.current_price ≠ extract_price_numeric o.price := by
    rw [hq, heq]
    exact not_not_intro rfl
  simp only [smart_save_products, List.isEmpty_cons, saveLoop, hu, urlFalsy, hne,
    Option.getD, hfind, hnd, Bool.false_eq_true, if_false]
  rfl

/-- A single-observation batch on a tracked URL whose parsed price differs
from the stored current price: the update path, which rewrites only
`current_price` and `last_updated` of that product and appends one history
row. -/
theorem smart_save_single_update (bid cid : Option Nat) (s : List Char)
    (now : Nat) (st : Store) (o : Obs) (p : Product) (q : ℚ)
    (hu : o.url = some p.url) (hne : p.url.isEmpty = false)
    (hfind : findProduct st p.url = some p)
    (hq : extract_price_numeric o.price = some q)
    (hdiff : p.current_price ≠ some q) :
    smart_save_products bid cid s now st [o] =
      (appendHistory (updatePrice st p.id (some q) now) p.id q, ⟨0, 1, 0⟩) := by
  have hd : p.current_price ≠ extract_price_numeric o.price := by
    rw [hq]
    exact hdiff
  simp only [smart_save_products, List.isEmpty_cons, saveLoop, hu, urlFalsy, hne,
    Option.getD, hfind, hd, hq, Bool.false_eq_true, if_false, if_true]
  rw [if_pos hdiff]
  rfl

/-- If the loop raised on some prefix, appending further observations cannot
resurrect it: the rest of the batch is never processed. -/
theorem saveLoop_error_append (bid cid : Option Nat) (s : List Char) (now : Nat) :
    ∀ (l1 : List Obs) (st : Store) (stats : Stats) (l2 : List Obs) (s1 : Stats),
      saveLoop bid cid s now st stats l1 = .error s1 →
      saveLoop bid cid s now st stats (l1 ++ l2) = .error s1
  | [], st, stats, l2, s1, h => by
    exact absurd h (by simp [saveLoop])
  | o :: rest, st, stats, l2, s1, h => by
    simp only [saveLoop, List.cons_append] at h ⊢
    by_cases hurl : urlFalsy o.url = true
    · rw [if_pos hurl] at h ⊢
      exact saveLoop_error_append bid cid s now rest st stats l2 s1 h
    · rw [if_neg hurl] at h ⊢
      cases hfp : findProduct st (o.url.getD []) with
      | some p =>
        rw [hfp] at h
        dsimp only at h ⊢
        by_cases hd : p.current_price ≠ extract_price_numeric o.price
        · rw [if_pos hd] at h ⊢
          cases hq : extract_price_numeric o.price with
          | none => rw [hq] at h; exact h
          | some q =>
            rw [hq] at h
            exact saveLoop_error_append bid cid s now rest _ _ l2 s1 h
        · rw [if_neg hd] at h ⊢
          exact saveLoop_error_append bid cid s now rest st _ l2 s1 h
      | none =>
        rw [hfp] at h
        dsimp only at h ⊢
        cases hq : extract_price_numeric o.price with
        | none => rw [hq] at h; exact h
        | some q =>
          rw [hq] at h
          exact saveLoop_error_append bid cid s now rest _ _ l2 s1 h

/-- An erroring batch is reported to the caller as the rolled-back store and
the counters accumulated before the failure — never as an exception. -/
theorem smart_save_error_rollback (bid cid : Option Nat) (s : List Char)
    (now : Nat) (st : Store) (obs : List Obs) (s1 : Stats)
    (h : saveLoop bid cid s now st Stats.zero obs = .error s1) :
    smart_save_products bid cid s now st obs = (st, s1) := by
  unfold smart_save_products
  split
  case _ hemp =>
    rw [List.isEmpty_iff.mp hemp] at h
    exact absurd h (by simp [saveLoop])
  · rw [h]

/-- One attempt of `extract_price`'s pattern loop either falls through or
returns a `€`-prefixed value inside the validated range. -/
theorem tryPricePattern_sound (g : Option (List Char)) (fb : List Char)
    (hfb : fb = naStr ∨
      ∃ v, fb = '€' :: v ∧ inPriceRange (pyFloat (commaToDot v)) = true) :
    tryPricePattern g fb = naStr ∨
      ∃ v, tryPricePattern g fb = '€' :: v ∧
        inPriceRange (pyFloat (commaToDot v)) = true := by
  match g with
  | none => exact hfb
  | some v =>
    by_cases hin : inPriceRange (pyFloat (commaToDot v)) = true
    · exact Or.inr ⟨v, by simp [tryPricePattern, hin], hin⟩
    · have hfall : tryPricePattern (some v) fb = fb := by
        simp [tryPricePattern, hin]
      rw [hfall]
      exact hfb

/-- The tuple returned by `detect_sale_and_calculate_price` has one of three
shapes: no sale, active sale, or future sale. -/
theorem detect_shape (a : Article) (cp : List Char) :
    detect_sale_and_calculate_price a cp = (false, false, none, none, none) ∨
    (∃ sp stype, detect_sale_and_calculate_price a cp = (true, false, sp, none, stype)) ∨
    (∃ sp ssa stype,
      detect_sale_and_calculate_price a cp = (false, true, sp, some ssa, stype)) := by
  simp only [detect_sale_and_calculate_price]
  split
  · split
    · exact Or.inr (Or.inl ⟨_, _, rfl⟩)
    · split
      · exact Or.inr (Or.inr ⟨_, _, _, rfl⟩)
      · exact Or.inr (Or.inl ⟨_, _, rfl⟩)
  · exact Or.inl rfl

/-- Sequential single-observation reconciliations against a store tracking
exactly one product of url `u`: each observation with a fresh parsed price
appends exactly one history row. -/
theorem runSeqObs_tracked (bid cid : Option Nat) (s : List Char) (now : Nat)
    (u : List Char) (hne : u.isEmpty = false) (obs : List Obs) (ps : List ℚ)
    (hfa : List.Forall₂ (ObsFor u) obs ps) :
    ∀ (st : Store) (prod : Product) (p0 : ℚ),
      st.products = [prod] → prod.url = u → prod.current_price = some p0 →
      List.Chain' (fun a b => a ≠ b) (p0 :: ps) →
      (runSeqObs bid cid s now st obs).history.length =
        st.history.length + ps.length ∧
      ∃ prod2 : Product, (runSeqObs bid cid s now st obs).products = [prod2] := by
  induction hfa with
  | nil =>
    intro st prod p0 hprods hurl hcp hch
    exact ⟨(Nat.add_zero _).symm, prod, hprods⟩
  | @cons o p obs2 ps2 ho hfa2 ih =>
    intro st prod p0 hprods hurl hcp hch
    obtain ⟨hou, hop⟩ := ho
    rw [List.chain'_cons] at hch
    obtain ⟨hne0, hch2⟩ := hch
    have hou2 : o.url = some prod.url := by rw [hurl]; exact hou
    have hne2 : prod.url.isEmpty = false := by rw [hurl]; exact hne
    have hfind : findProduct st prod.url = some prod := by
      simp [findProduct, hprods, List.find?]
    have hdiff : prod.current_price ≠ some p := by
      rw [hcp]
      intro hcon
      exact hne0 (Option.some.inj hcon)
    have hstep := smart_save_single_update bid cid s now st o prod p
      hou2 hne2 hfind hop hdiff
    rw [runSeqObs, hstep]
    have hprods1 :
        (appendHistory (updatePrice st prod.id (some p) now) prod.id p).products =
          [{ prod with current_price := some p, last_updated := now }] := by
      simp [appendHistory, updatePrice, hprods]
    obtain ⟨hlen, hex⟩ := ih _ _ p hprods1 (by simpa using hurl) rfl hch2
    refine ⟨?_, hex⟩
    have hh : (appendHistory (updatePrice st prod.id (some p) now) prod.id p).history.length =
        st.history.length + 1 := by
      simp [appendHistory, updatePrice]
    rw [hlen, hh, List.length_cons]
    omega

/-! ## The claims -/

/-- C1 (confirmed).  Ledger invariant: after any sequence of
`smart_save_products` reconciliations starting from an empty store, every
product whose `current_price` is set has at least one price-history row, and
the price of its most recent row equals the product's `current_price` (seeded
at creation, re-established on every price-changed update, untouched when
unchanged). -/
theorem c1_ledger_invariant (batches : List Batch) :
    ∀ p ∈ (runBatches Store.empty batches).products, ∀ q : ℚ,
      p.current_price = some q →
      latestPrice (runBatches Store.empty batches) p.id = some q ∧
      (runBatches Store.empty batches).history.filter
        (fun h => h.product_id = p.id) ≠ [] := by
  intro p hp q hq
  have hinv := (runBatches_wf_inv batches Store.empty storeWF_empty ledgerInv_empty).2
  have h := hinv p hp q hq
  refine ⟨h, ?_⟩
  intro hnil
  unfold latestPrice at h
  rw [hnil] at h
  simp at h

/-- Witness for C1: the invariant evaluated after one concrete batch. -/
theorem c1_ledger_invariant_witness :
    latestPrice (runBatches Store.empty [batchX]) prodX.id = some 1 ∧
    (runBatches Store.empty [batchX]).history.filter
      (fun h => h.product_id = prodX.id) ≠ [] :=
  c1_ledger_invariant [batchX] prodX (by with_unfolding_all decide) 1
    (by with_unfolding_all rfl)

/-- C2 (code_bug).  The spec says a parse failure (`extract_price_numeric`
returning `None`) leaves an existing product untouched and classified
"unchanged", and still creates a brand-new product with `current_price`
unset.  The code instead feeds the `None` into the `NOT NULL`
`price_history.price` column: the batch raises, is caught, and rolls back —
the returned counters are all zero (no "unchanged" classification) and the
brand-new product is not created at all. -/
theorem c2_parse_failure_crashes_batch :
    extract_price_numeric naStr = none ∧
    saveLoop none none brandStr 2 Store.empty Stats.zero [obsXNA] =
      .error Stats.zero ∧
    smart_save_products none none brandStr 2 Store.empty [obsXNA] =
      (Store.empty, Stats.zero) ∧
    saveLoop none none brandStr 2 stSeedX Stats.zero [obsXNA] =
      .error Stats.zero ∧
    smart_save_products none none brandStr 2 stSeedX [obsXNA] =
      (stSeedX, Stats.zero) := by
  refine ⟨?_, ?_, ?_, ?_, ?_⟩ <;> with_unfolding_all rfl

/-- C3 counterexample: one failing observation aborts the rest of the batch.
A batch of a bad observation followed by a good one for a fresh URL leaves
the store exactly as before — the good observation is never committed,
refuting "a failure while processing one observation does not abort
processing of the remaining observations". -/
theorem c3_counterexample :
    smart_save_products none none brandStr 2 stSeedX [obsXNA, obsY300] =
      (stSeedX, Stats.zero) ∧
    findProduct (smart_save_products none none brandStr 2 stSeedX
      [obsXNA, obsY300]).1 urlY = none := by
  refine ⟨?_, ?_⟩ <;> with_unfolding_all rfl

/-- C3 (corrected).  A failure while processing one observation aborts the
remaining observations of the batch and rolls the batch back, but the outcome
is still reported to the caller as structured counts (those accumulated
before the failure) and never as an exception propagating out of the
batch. -/
theorem c3_amended_batch_abort :
    (∀ (bid cid : Option Nat) (s : List Char) (now : Nat) (st : Store)
        (stats : Stats) (l1 l2 : List Obs) (s1 : Stats),
      saveLoop bid cid s now st stats l1 = .error s1 →
      saveLoop bid cid s now st stats (l1 ++ l2) = .error s1) ∧
    (∀ (bid cid : Option Nat) (s : List Char) (now : Nat) (st : Store)
        (obs : List Obs) (s1 : Stats),
      saveLoop bid cid s now st Stats.zero obs = .error s1 →
      smart_save_products bid cid s now st obs = (st, s1)) :=
  ⟨fun bid cid s now st stats l1 l2 s1 h =>
      saveLoop_error_append bid cid s now l1 st stats l2 s1 h,
   fun bid cid s now st obs s1 h =>
      smart_save_error_rollback bid cid s now st obs s1 h⟩

/-- Witness for C3 (amended) at a concrete erroring batch. -/
theorem c3_amended_witness :
    saveLoop none none brandStr 2 stSeedX Stats.zero ([obsXNA] ++ [obsY300]) =
      .error Stats.zero ∧
    smart_save_products none none brandStr 2 stSeedX [obsXNA, obsY300] =
      (stSeedX, Stats.zero) := by
  constructor
  · exact c3_amended_batch_abort.1 none none brandStr 2 stSeedX Stats.zero
      [obsXNA] [obsY300] Stats.zero (by with_unfolding_all rfl)
  · exact c3_amended_batch_abort.2 none none brandStr 2 stSeedX
      [obsXNA, obsY300] Stats.zero (by with_unfolding_all rfl)

/-- C4 (confirmed).  Idempotence of reconciliation: submitting the same
observation (same URL, same successfully parsed price) twice yields exactly
one history row in total; the first submission is classified "new", the
second "unchanged" (numeric comparison against the stored price), and the
second submission changes nothing in the store. -/
theorem c4_idempotent (bid cid : Option Nat) (s : List Char) (n1 n2 : Nat)
    (st : Store) (o : Obs) (u : List Char) (q : ℚ)
    (hu : o.url = some u) (hne : u.isEmpty = false)
    (hfind : findProduct st u = none)
    (hfresh : ∀ h ∈ st.history, h.product_id ≠ st.nextId)
    (hq : extract_price_numeric o.price = some q) :
    (smart_save_products bid cid s n1 st [o]).2 = ⟨1, 0, 0⟩ ∧
    ((smart_save_products bid cid s n1 st [o]).1.history.filter
        (fun h => h.product_id = st.nextId)).length = 1 ∧
    smart_save_products bid cid s n2
        (smart_save_products bid cid s n1 st [o]).1 [o]
      = ((smart_save_products bid cid s n1 st [o]).1, ⟨0, 0, 1⟩) := by
  have hstep := smart_save_single_new bid cid s n1 st o u q hu hne hfind hq
  rw [hstep]
  refine ⟨rfl, ?_, ?_⟩
  · simp only [appendHistory, insertProduct]
    rw [List.filter_append]
    have h0 : st.history.filter (fun h => h.product_id = st.nextId) = [] :=
      List.filter_eq_nil_iff.mpr (fun a ha => by simpa using hfresh a ha)
    rw [h0]
    simp
  · have hfind2 :
        findProduct
          (appendHistory (insertProduct bid cid s n1 st o u (some q)) st.nextId q) u
        = some
          { id := st.nextId, brand_id := bid, category_id := cid, name := o.name,
            current_price := some q, url := u, source_type := s,
            supermarket := (r"ah").data, page_number := 8, isSale := o.isSale,
            isFutureSale := o.isFutureSale, salePrice := o.salePrice,
            saleStartsAt := o.saleStartsAt, saleType := o.saleType,
            created_at := n1, last_updated := n1 } := by
      unfold findProduct at hfind ⊢
      simp only [appendHistory, insertProduct]
      rw [List.find?_append, hfind]
      simp [List.find?]
    exact smart_save_single_unchanged bid cid s n2
      (appendHistory (insertProduct bid cid s n1 st o u (some q)) st.nextId q) o
      { id := st.nextId, brand_id := bid, category_id := cid, name := o.name,
        current_price := some q, url := u, source_type := s,
        supermarket := (r"ah").data, page_number := 8, isSale := o.isSale,
        isFutureSale := o.isFutureSale, salePrice := o.salePrice,
        saleStartsAt := o.saleStartsAt, saleType := o.saleType,
        created_at := n1, last_updated := n1 } q hu hne hfind2 hq rfl

/-- Witness for C4: the same observation submitted twice from the empty
store. -/
theorem c4_idempotent_witness :
    (smart_save_products none none brandStr 1 Store.empty [obsX100]).2 = ⟨1, 0, 0⟩ ∧
    ((smart_save_products none none brandStr 1 Store.empty [obsX100]).1.history.filter
        (fun h => h.product_id = Store.empty.nextId)).length = 1 ∧
    smart_save_products none none brandStr 2
        (smart_save_products none none brandStr 1 Store.empty [obsX100]).1 [obsX100]
      = ((smart_save_products none none brandStr 1 Store.empty [obsX100]).1,
         ⟨0, 0, 1⟩) :=
  c4_idempotent none none brandStr 1 2 Store.empty obsX100 urlX 1
    (by with_unfolding_all rfl) (by with_unfolding_all rfl)
    (by with_unfolding_all rfl) (by with_unfolding_all decide)
    (by with_unfolding_all rfl)

/-- C5 counterexample: the claim accepts exactly 1000.00 regardless of
currency-symbol position, but the bare two-decimal patterns match at most
three integer digits, so bare `"1000.00"` (an in-range amount) yields
`"Not available"`; the same amount is accepted with a euro sign. -/
theorem c5_counterexample :
    extract_price ((r"1000.00").data) = naStr ∧
    extract_price ((r"1000.00 €").data) = (r"€1000.00").data ∧
    inPriceRange 1000 = true := by
  refine ⟨?_, ?_, ?_⟩ <;> with_unfolding_all rfl

/-- C5 (corrected).  Price Parser postcondition: any returned price lies in
the validated range [0.01, 1000.00] (never an exception — the function is
total and otherwise returns "Not available"); amounts in range are returned
for comma or dot separators with the euro sign prefixed, suffixed, or absent
— except that the bare (symbol-less) patterns match at most three integer
digits, so bare `"1000.00"` is rejected while `"€1000.00"` and
`"1000.00 €"` are accepted; 1000.01 is never returned and 0.00 is
rejected; a unit size such as `"0,75 l"` yields "Not available". -/
theorem c5_amended_price_extraction :
    (∀ text : List Char,
      extract_price text = naStr ∨
      ∃ v, extract_price text = '€' :: v ∧
        inPriceRange (pyFloat (commaToDot v)) = true) ∧
    extract_price ((r"€1,89").data) = (r"€1,89").data ∧
    extract_price_numeric ((r"€1,89").data) = some (189 / 100) ∧
    extract_price ((r"€1.89").data) = (r"€1.89").data ∧
    extract_price ((r"1,89 €").data) = (r"€1,89").data ∧
    extract_price ((r"9.99 €").data) = (r"€9.99").data ∧
    extract_price ((r"1,89").data) = (r"€1,89").data ∧
    extract_price ((r"9.99").data) = (r"€9.99").data ∧
    extract_price ((r"0,75 l").data) = naStr ∧
    extract_price ((r"€1000.00").data) = (r"€1000.00").data ∧
    extract_price ((r"1000.00").data) = naStr ∧
    extract_price ((r"€1000.01").data) = (r"€000.01").data ∧
    extract_price ((r"0.00").data) = naStr ∧
    extract_price ((r"€0.00").data) = naStr := by
  refine ⟨?_, ?_, ?_, ?_, ?_, ?_, ?_, ?_, ?_, ?_, ?_, ?_, ?_, ?_⟩
  · intro text
    simp only [extract_price]
    exact tryPricePattern_sound _ _ (tryPricePattern_sound _ _
      (tryPricePattern_sound _ _ (tryPricePattern_sound _ _ (Or.inl rfl))))
  all_goals with_unfolding_all rfl

/-- C6 (confirmed).  Promotion Normalizer formulas and priority:
`calculate_sale_price` tries the promotional patterns in the fixed source
order ("N voor P", bare "voor P", "N euro korting", "N% korting", ordinal
"Ne halve prijs", plain "halve prijs", "A + B gratis", "Ne gratis", unit
pricing) and returns the first matching formula's value without combining
patterns: "2 voor 0.99" yields 0.495 for any regular price, "30% korting"
against 10.00 yields 7.00, "3e gratis" against 9.00 yields 6.00; texts
matching several patterns take the earlier pattern's formula. -/
theorem c6_promotion_priority :
    (∀ reg : List Char,
      calculate_sale_price ((r"2 voor 0.99").data) reg = some (99 / 200)) ∧
    calculate_sale_price ((r"30% korting").data) ((r"€10.00").data) = some 7 ∧
    calculate_sale_price ((r"3e gratis").data) ((r"€9.00").data) = some 6 ∧
    calculate_sale_price ((r"2 VOOR 0.99 en 30% korting").data) ((r"€10.00").data)
      = some (99 / 200) ∧
    calculate_sale_price ((r"30% korting en 1 euro korting").data)
      ((r"€10.00").data) = some 9 ∧
    calculate_sale_price ((r"2e halve prijs").data) ((r"€10.00").data)
      = some (15 / 2) ∧
    calculate_sale_price ((r"1 + 2 gratis en 2e gratis").data) ((r"€10.00").data)
      = some (10 / 3) ∧
    calculate_sale_price ((r"100 gram voor 1.69").data) ((r"€10.00").data)
      = some (169 / 100) := by
  refine ⟨fun reg => ?_, ?_, ?_, ?_, ?_, ?_, ?_, ?_⟩ <;> with_unfolding_all rfl

/-- C7 (confirmed).  SaleAnnotation invariant: for every article and
current-price string, `detect_sale_and_calculate_price` never returns both
flags true; both may be false (as on an article without badges); and the sale
price is non-null only when at least one of the two flags is true. -/
theorem c7_sale_annotation_invariant :
    (∀ (a : Article) (cp : List Char),
      ¬((detect_sale_and_calculate_price a cp).1 = true ∧
        (detect_sale_and_calculate_price a cp).2.1 = true) ∧
      ((detect_sale_and_calculate_price a cp).2.2.1 ≠ none →
        (detect_sale_and_calculate_price a cp).1 = true ∨
        (detect_sale_and_calculate_price a cp).2.1 = true)) ∧
    detect_sale_and_calculate_price artNone cp250 =
      (false, false, none, none, none) := by
  constructor
  · intro a cp
    rcases detect_shape a cp with h | ⟨sp, stype, h⟩ | ⟨sp, ssa, stype, h⟩ <;>
      rw [h] <;> exact ⟨by simp, by simp⟩
  · with_unfolding_all rfl

/-- Witness for C7: the sale-price-non-null implication instantiated at an
article with an active sale. -/
theorem c7_sale_annotation_witness :
    (detect_sale_and_calculate_price artKorting cp250).1 = true ∨
    (detect_sale_and_calculate_price artKorting cp250).2.1 = true :=
  (c7_sale_annotation_invariant.1 artKorting cp250).2 (by with_unfolding_all decide)

/-- C8 counterexample: a badge containing the calculation keyword `gratis`
whose article text matches no promotional pattern.  The sale is flagged, the
display price parses to 2.50, yet the sale price is left unset instead of
being set to the display price — refuting the claim for calculation
keywords. -/
theorem c8_counterexample :
    saleKeywordTokens.any (fun k => isSubstr k (combinedSaleText artGratis)) = true ∧
    calculate_sale_price artGratis.fullText cp250 = none ∧
    extract_price_numeric cp250 = some (5 / 2) ∧
    detect_sale_and_calculate_price artGratis cp250
      = (true, false, none, none, some ((r"gratis bezorging").data)) := by
  refine ⟨?_, ?_, ?_, ?_⟩ <;> with_unfolding_all rfl

/-- C8 (corrected).  The verbatim display-price fallback applies exactly when
the recognized badge text contains a generic sale keyword but none of the
calculation keywords ("halve prijs", "gratis", "voor"): then the sale price
is the parsed display price with no arithmetic.  When a calculation keyword
is present, the sale price is whatever `calculate_sale_price` returns — left
unset if no pattern matches. -/
theorem c8_amended_fallback (a : Article) (cp : List Char) :
    ((saleElementTexts a).isEmpty = false →
      saleKeywordTokens.any (fun k => isSubstr k (combinedSaleText a)) = true →
      calcKeywordTokens.any (fun k => isSubstr k (combinedSaleText a)) = false →
      (detect_sale_and_calculate_price a cp).2.2.1 = extract_price_numeric cp) ∧
    ((saleElementTexts a).isEmpty = false →
      saleKeywordTokens.any (fun k => isSubstr k (combinedSaleText a)) = true →
      calcKeywordTokens.any (fun k => isSubstr k (combinedSaleText a)) = true →
      (detect_sale_and_calculate_price a cp).2.2.1 =
        calculate_sale_price a.fullText cp) := by
  constructor <;>
    · intro h1 h2 h3
      simp only [detect_sale_and_calculate_price, h1, h2, h3, Bool.false_eq_true,
        not_false_eq_true, true_and, if_true, if_false, and_true]
      split
      · rfl
      · split <;> rfl

/-- Witness for C8 (amended), on a korting-only badge and on a
calculation-keyword badge. -/
theorem c8_amended_witness :
    (detect_sale_and_calculate_price artKorting cp250).2.2.1 =
      extract_price_numeric cp250 ∧
    (detect_sale_and_calculate_price artVandaag cp060).2.2.1 =
      calculate_sale_price artVandaag.fullText cp060 := by
  constructor
  · exact (c8_amended_fallback artKorting cp250).1 (by with_unfolding_all rfl)
      (by with_unfolding_all rfl) (by with_unfolding_all rfl)
  · exact (c8_amended_fallback artVandaag cp060).2 (by with_unfolding_all rfl)
      (by with_unfolding_all rfl) (by with_unfolding_all rfl)

/-- C9 counterexample: two concurrent tasks observe the same fresh URL with
distinct prices (1.00 and 2.00).  Under the schedule where both autocommit
reads happen before either commit, the second task's product insert violates
the UNIQUE url constraint and its batch rolls back: one history row remains
instead of the claimed two, while sequential submission of the same two
observations yields two rows. -/
theorem c9_counterexample :
    (execSched none none brandStr 1 [.readA, .readB, .commitA, .commitB]
        Store.empty (TaskState.start obsX100) (TaskState.start obsX200)).history.length
      = 1 ∧
    (runSeqObs none none brandStr 1 Store.empty [obsX100, obsX200]).history.length
      = 2 := by
  refine ⟨?_, ?_⟩ <;> with_unfolding_all rfl

/-- C9 (corrected).  N observations of the same URL with pairwise-distinct
parsed prices, submitted sequentially, end with exactly N history rows (one
seed plus N−1 updates) and a single product row; concurrent submission can
lose observations (see the counterexample). -/
theorem c9_amended_sequential (bid cid : Option Nat) (s : List Char) (now : Nat)
    (u : List Char) (hne : u.isEmpty = false) (o : Obs) (p : ℚ)
    (obs : List Obs) (ps : List ℚ)
    (hfa : List.Forall₂ (ObsFor u) (o :: obs) (p :: ps))
    (hdist : List.Pairwise (fun a b => a ≠ b) (p :: ps)) :
    (runSeqObs bid cid s now Store.empty (o :: obs)).history.length =
      (o :: obs).length ∧
    ∃ prod2 : Product,
      (runSeqObs bid cid s now Store.empty (o :: obs)).products = [prod2] := by
  cases hfa with
  | cons ho hfa2 =>
    obtain ⟨hou, hop⟩ := ho
    have hfind : findProduct Store.empty u = none := rfl
    have hstep := smart_save_single_new bid cid s now Store.empty o u p hou hne
      hfind hop
    rw [runSeqObs, hstep]
    obtain ⟨hlen, hex⟩ := runSeqObs_tracked bid cid s now u hne obs ps hfa2
      (appendHistory (insertProduct bid cid s now Store.empty o u (some p))
        Store.empty.nextId p)
      _ p rfl rfl rfl hdist.chain'
    refine ⟨?_, hex⟩
    have hl1 : (appendHistory (insertProduct bid cid s now Store.empty o u (some p))
        Store.empty.nextId p).history.length = 1 := rfl
    rw [hlen, hl1, List.length_cons, hfa2.length_eq]
    omega

/-- Witness for C9 (amended): three sequential observations with distinct
prices give three history rows and one product row. -/
theorem c9_amended_witness :
    (runSeqObs none none brandStr 1 Store.empty
      [obsX100, obsX200, obsX300]).history.length = 3 ∧
    ∃ prod2 : Product,
      (runSeqObs none none brandStr 1 Store.empty
        [obsX100, obsX200, obsX300]).products = [prod2] :=
  c9_amended_sequential none none brandStr 1 urlX (by with_unfolding_all rfl)
    obsX100 1 [obsX200, obsX300] [2, 3]
    (List.Forall₂.cons ⟨by with_unfolding_all rfl, by with_unfolding_all rfl⟩
      (List.Forall₂.cons ⟨by with_unfolding_all rfl, by with_unfolding_all rfl⟩
        (List.Forall₂.cons ⟨by with_unfolding_all rfl, by with_unfolding_all rfl⟩
          List.Forall₂.nil)))
    (by with_unfolding_all decide)

/-- C10 (confirmed).  Frame property of the update path: when an observation
for an already-tracked product parses to a price different from the stored
one, the batch appends one history row and rewrites only `current_price` and
`last_updated` of that product; its name, url, brand/category links,
source type, supermarket, and all sale fields keep the values written at
creation, whatever sale annotation the new observation carries, and every
other product row is untouched. -/
theorem c10_update_frame (bid cid : Option Nat) (s : List Char) (now : Nat)
    (st : Store) (o : Obs) (p : Product) (q : ℚ)
    (hu : o.url = some p.url) (hne : p.url.isEmpty = false)
    (hfind : findProduct st p.url = some p)
    (hq : extract_price_numeric o.price = some q)
    (hdiff : p.current_price ≠ some q) :
    (smart_save_products bid cid s now st [o]).1.history =
      st.history ++ [⟨p.id, q⟩] ∧
    (smart_save_products bid cid s now st [o]).1.products =
      st.products.map (fun r =>
        if r.id = p.id then { r with current_price := some q, last_updated := now }
        else r) ∧
    { p with current_price := some q, last_updated := now }
      ∈ (smart_save_products bid cid s now st [o]).1.products ∧
    (∀ r ∈ (smart_save_products bid cid s now st [o]).1.products,
      r.id ≠ p.id → r ∈ st.products) := by
  have hstep := smart_save_single_update bid cid s now st o p q hu hne hfind hq hdiff
  rw [hstep]
  refine ⟨rfl, rfl, ?_, ?_⟩
  · have hp : p ∈ st.products := List.mem_of_find?_eq_some hfind
    simp only [appendHistory, updatePrice]
    exact List.mem_map.mpr ⟨p, hp, by simp⟩
  · intro r hr hrid
    simp only [appendHistory, updatePrice, List.mem_map] at hr
    obtain ⟨r0, hr0, hr0e⟩ := hr
    by_cases h0 : r0.id = p.id
    · exfalso
      apply hrid
      rw [← hr0e]
      simp [h0]
    · rw [← hr0e, if_neg h0]
      exact hr0

/-- Witness for C10: the tracked product X updated by an observation carrying
a different sale annotation. -/
theorem c10_update_frame_witness :
    (smart_save_products none none brandStr 2 stSeedX [obsX120]).1.history =
      stSeedX.history ++ [⟨prodX.id, 6 / 5⟩] ∧
    (smart_save_products none none brandStr 2 stSeedX [obsX120]).1.products =
      stSeedX.products.map (fun r =>
        if r.id = prodX.id then
          { r with current_price := some (6 / 5), last_updated := 2 }
        else r) ∧
    { prodX with current_price := some (6 / 5), last_updated := 2 }
      ∈ (smart_save_products none none brandStr 2 stSeedX [obsX120]).1.products ∧
    (∀ r ∈ (smart_save_products none none brandStr 2 stSeedX [obsX120]).1.products,
      r.id ≠ prodX.id → r ∈ stSeedX.products) :=
  c10_update_frame none none brandStr 2 stSeedX obsX120 prodX (6 / 5)
    (by with_unfolding_all rfl) (by with_unfolding_all rfl)
    (by with_unfolding_all rfl) (by with_unfolding_all rfl)
    (by with_unfolding_all decide)

end PriceLedger

